import Mathlib

/-!
Verification of the content-tagging recommendation engine.

The definitions below are a shallow embedding of the engine found in the
repository's form component: the tokenizer (`analyzeText`), the cosine
similarity scorer (`calculateSimilarity`), the corpus matcher and category
recommender (`generateRecommendations`), the auto-apply policy of the effect
block (`applyAuto`), and the effect itself (`stepEffect`).  JavaScript numbers
are modelled as real numbers; JavaScript's stable `Array.prototype.sort` is
modelled by a stable insertion sort (`sortDescBy`); JavaScript objects used as
ordered string-keyed maps are modelled by association lists in insertion
order.
-/

/-- A word character in the sense of the regex class used by the tokenizer:
a letter, a digit, or an underscore. -/
def isWordChar (c : Char) : Bool :=
  c.isAlpha || c.isDigit || c == '_'

/-- Charwise lowercasing, modelling `toLowerCase()` on the (ASCII) texts the
engine handles. -/
def lowerChars (s : String) : List Char :=
  s.data.map Char.toLower

/-- Modelling `trim()`: strip leading and trailing whitespace. -/
def trimString (s : String) : String :=
  String.mk (((s.data.dropWhile Char.isWhitespace).reverse.dropWhile
    Char.isWhitespace).reverse)

/-- Worker for `splitRuns`: `cur` holds the current run of word characters in
reverse order. -/
def splitRunsAux : List Char → List Char → List (List Char)
  | [], cur => if cur.isEmpty then [] else [cur.reverse]
  | c :: rest, cur =>
    if isWordChar c then splitRunsAux rest (c :: cur)
    else if cur.isEmpty then splitRunsAux rest []
    else cur.reverse :: splitRunsAux rest []

/-- Splitting on runs of non-word characters (the `split(/\W+/)` step):
the result is the list of maximal runs of word characters. -/
def splitRuns (cs : List Char) : List (List Char) :=
  splitRunsAux cs []

/-- The tokenizer's token list: lowercase, split on runs of non-word
characters, keep only tokens of length greater than 2. -/
def tokenize (text : String) : List String :=
  ((splitRuns (lowerChars text)).map (fun cs => String.mk cs)).filter
    (fun w => decide (2 < w.length))

/-- One step of the frequency-counting fold `acc[word] = (acc[word] || 0) + 1`
on an object modelled as an association list in insertion order. -/
def bump : List (String × Nat) → String → List (String × Nat)
  | [], w => [(w, 1)]
  | e :: rest, w =>
    if e.1 = w then (e.1, e.2 + 1) :: rest else e :: bump rest w

/-- `analyzeText`: word-frequency map of a text (source lines 152-158). -/
def analyzeText (text : String) : List (String × Nat) :=
  (tokenize text).foldl bump []

/-- Frequency lookup, modelling `freq[word] || 0`. -/
def freq (m : List (String × Nat)) (w : String) : Nat :=
  match m.find? (fun e => e.1 == w) with
  | some e => e.2
  | none => 0

/-- The union vocabulary `new Set([...Object.keys(freq1), ...Object.keys(freq2)])`. -/
def vocab (f1 f2 : List (String × Nat)) : Finset String :=
  (f1.map Prod.fst).toFinset ∪ (f2.map Prod.fst).toFinset

/-- The dot product accumulated over the union vocabulary. -/
def dotProduct (f1 f2 : List (String × Nat)) : ℝ :=
  ∑ w ∈ vocab f1 f2, (freq f1 w : ℝ) * (freq f2 w : ℝ)

/-- The squared magnitude `mag1` accumulated over the union vocabulary. -/
def magSq1 (f1 f2 : List (String × Nat)) : ℝ :=
  ∑ w ∈ vocab f1 f2, (freq f1 w : ℝ) * (freq f1 w : ℝ)

/-- The squared magnitude `mag2` accumulated over the union vocabulary. -/
def magSq2 (f1 f2 : List (String × Nat)) : ℝ :=
  ∑ w ∈ vocab f1 f2, (freq f2 w : ℝ) * (freq f2 w : ℝ)

/-- `calculateSimilarity` (source lines 160-178): cosine similarity of the two
frequency vectors, with the denominator `Math.sqrt(mag1) * Math.sqrt(mag2) || 1`
replaced by 1 when the product of magnitudes is 0. -/
noncomputable def calculateSimilarity (text1 text2 : String) : ℝ :=
  dotProduct (analyzeText text1) (analyzeText text2) /
    (if Real.sqrt (magSq1 (analyzeText text1) (analyzeText text2)) *
        Real.sqrt (magSq2 (analyzeText text1) (analyzeText text2)) = 0 then 1
     else Real.sqrt (magSq1 (analyzeText text1) (analyzeText text2)) *
        Real.sqrt (magSq2 (analyzeText text1) (analyzeText text2)))

/-- The form / historical-record shape (`FormData` in the source). -/
structure FormData where
  title : String
  description : String
  distributionChannel : String
  accessLevel : String
  contentType : String
  writtenFormat : String
  fileType : String
  visualFormat : String
  interactiveFormat : String
  tags : List String
deriving DecidableEq

/-- One ranked suggestion (`Recommendation` in the source). -/
structure Recommendation where
  value : String
  confidence : ℤ
  similar : ℕ
deriving DecidableEq

/-- A category definition: its ordered options and a description. -/
structure CategoryDefinition where
  options : List String
  description : String
deriving DecidableEq

/-- The seven category definitions, in declaration order. -/
def categoryDefinitionsList : List (String × CategoryDefinition) :=
  [("distributionChannel",
    ⟨["Social Media", "Newsletter", "Website", "Premium Content"],
     "Where the content will be primarily distributed"⟩),
   ("accessLevel",
    ⟨["Public", "Members Only", "Premium"], "Who can access this content"⟩),
   ("contentType",
    ⟨["LONG FORM", "MEDIUM FORM", "QUICK TAKE", "VISUAL/INTERACTIVE"],
     "The primary format of the content"⟩),
   ("writtenFormat",
    ⟨["Feature Article", "Standard Article", "Brief Article", "Technical Framework"],
     "Specific written content structure"⟩),
   ("fileType", ⟨["PDF", "Excel", "Web"], "Final delivery format"⟩),
   ("visualFormat",
    ⟨["Image Analysis", "Quote Card", "Carousel", "Infographic", "Video", "Reel/Story"],
     "Visual elements included"⟩),
   ("interactiveFormat",
    ⟨["Poll", "Thread", "Template", "Framework", "Dashboard", "Checklist"],
     "Interactive elements included"⟩)]

/-- The embedded historical corpus (two records). -/
def historicalContent : List FormData :=
  [⟨"Advanced AI Implementation Guide",
    "Comprehensive guide for implementing AI systems with focus on human-centered design",
    "Premium Content", "Premium", "LONG FORM", "Technical Framework", "PDF",
    "Infographic", "Framework",
    ["#HumanFirstDesign", "#AIFoundations", "#ResponsibleScale"]⟩,
   ⟨"Quick Social Media Updates on AI News",
    "Daily updates on AI developments for social sharing",
    "Social Media", "Public", "QUICK TAKE", "Brief Article", "Web", "Quote Card",
    "Thread", ["#AINews", "#AIBreakthroughs"]⟩]

/-- The initial, all-empty form state. -/
def initialFormData : FormData :=
  ⟨"", "", "", "", "", "", "", "", "", []⟩

/-- Dynamic keyed read `record[key]` restricted to the string-valued fields;
`tags` (an array) and unknown keys give `none`. -/
def getFieldString? (f : FormData) : String → Option String
  | "title" => some f.title
  | "description" => some f.description
  | "distributionChannel" => some f.distributionChannel
  | "accessLevel" => some f.accessLevel
  | "contentType" => some f.contentType
  | "writtenFormat" => some f.writtenFormat
  | "fileType" => some f.fileType
  | "visualFormat" => some f.visualFormat
  | "interactiveFormat" => some f.interactiveFormat
  | _ => none

/-- Whether a key names one of the string-valued form fields. -/
def isStringField (k : String) : Bool :=
  k ∈ ["title", "description", "distributionChannel", "accessLevel",
       "contentType", "writtenFormat", "fileType", "visualFormat",
       "interactiveFormat"]

/-- Dynamic keyed write `form[key] = v` for the string-valued fields; `tags`
and unknown keys leave the form unchanged. -/
def setField (f : FormData) (k v : String) : FormData :=
  match k with
  | "title" => { f with title := v }
  | "description" => { f with description := v }
  | "distributionChannel" => { f with distributionChannel := v }
  | "accessLevel" => { f with accessLevel := v }
  | "contentType" => { f with contentType := v }
  | "writtenFormat" => { f with writtenFormat := v }
  | "fileType" => { f with fileType := v }
  | "visualFormat" => { f with visualFormat := v }
  | "interactiveFormat" => { f with interactiveFormat := v }
  | _ => f

/-- Stable insertion for a descending sort keyed by `key`: the new element
goes in front of the first element whose key is not larger, so an element
inserted later (that came earlier in the input) precedes its ties. -/
def insertDescBy {α : Type} {β : Type} [LinearOrder β] (key : α → β) (r : α) :
    List α → List α
  | [] => [r]
  | x :: xs =>
    if key x ≤ key r then r :: x :: xs else x :: insertDescBy key r xs

/-- Stable descending sort by `key`, modelling the stable
`sort((a, b) => keyB - keyA)` of the source. -/
def sortDescBy {α : Type} {β : Type} [LinearOrder β] (key : α → β) :
    List α → List α
  | [] => []
  | x :: xs => insertDescBy key x (sortDescBy key xs)

/-- The per-category score table `categoryScores`, an object keyed by option
in declaration order holding a confidence accumulator and a support count. -/
def initTable (options : List String) : List (String × (ℝ × ℕ)) :=
  options.map (fun o => (o, (0, 0)))

/-- One matched record's vote: if the record's value for the category is a key
of the table, add `similarity * 100` to that option's confidence and bump its
count (source lines 205-211). -/
def tableStep (getVal : FormData → Option String)
    (t : List (String × (ℝ × ℕ))) (p : FormData × ℝ) :
    List (String × (ℝ × ℕ)) :=
  match getVal p.1 with
  | some v =>
    if (t.map Prod.fst).contains v then
      t.map (fun e =>
        if e.1 = v then (e.1, (e.2.1 + p.2 * 100, e.2.2 + 1)) else e)
    else t
  | none => t

/-- The filled score table after all matched records have voted. -/
def fillTable (sims : List (FormData × ℝ)) (getVal : FormData → Option String)
    (options : List String) : List (String × (ℝ × ℕ)) :=
  sims.foldl (tableStep getVal) (initTable options)

/-- Specification-side accumulator: the summed `similarity * 100` of the
matched records that voted for option `o`. -/
def optionConfidence (sims : List (FormData × ℝ))
    (getVal : FormData → Option String) (o : String) : ℝ :=
  (((sims.filter (fun p => decide (getVal p.1 = some o))).map
    (fun p => p.2 * 100))).sum

/-- Specification-side accumulator: how many matched records voted for
option `o`. -/
def optionSupport (sims : List (FormData × ℝ))
    (getVal : FormData → Option String) (o : String) : ℕ :=
  (sims.filter (fun p => decide (getVal p.1 = some o))).length

/-- One category's recommendation list (source lines 213-220): round each
accumulated confidence, keep options with positive confidence, sort
descending by confidence (stably). -/
noncomputable def categoryRecs (sims : List (FormData × ℝ))
    (getVal : FormData → Option String) (options : List String) :
    List Recommendation :=
  sortDescBy (fun r => r.confidence)
    (((fillTable sims getVal options).map
        (fun e => ⟨e.1, round e.2.1, e.2.2⟩)).filter
      (fun r => decide (0 < r.confidence)))

/-- The similarity scores of the live text against every corpus record
(source lines 185-192, before the filter and sort). -/
noncomputable def corpusScores (title description : String) :
    List (FormData × ℝ) :=
  historicalContent.map (fun c =>
    (c, calculateSimilarity
      (String.mk (lowerChars (trimString (title ++ " " ++ description))))
      (String.mk (lowerChars (c.title ++ " " ++ c.description)))))

/-- The value returned by `generateRecommendations`. -/
structure GenResult where
  recommendations : List (String × List Recommendation)
  similarContent : List (FormData × ℝ)

/-- `generateRecommendations` (source lines 180-228): empty result when the
trimmed combined text is blank; otherwise match the corpus (keep similarity
strictly above 0.1, sort descending) and aggregate one recommendation list
per category. -/
noncomputable def generateRecommendations (title description : String) :
    GenResult :=
  if trimString (title ++ " " ++ description) = "" then ⟨[], []⟩
  else
    ⟨categoryDefinitionsList.map (fun kv =>
        (kv.1, categoryRecs
          (sortDescBy (fun p => p.2)
            ((corpusScores title description).filter
              (fun p => decide ((0.1 : ℝ) < p.2))))
          (fun c => getFieldString? c kv.1) kv.2.options)),
     sortDescBy (fun p => p.2)
       ((corpusScores title description).filter
         (fun p => decide ((0.1 : ℝ) < p.2)))⟩

/-- The `updatedFields` object of the auto-apply block (source lines 240-248),
as the ordered list of key/value writes collected against the current form. -/
def autoUpdates (recs : List (String × List Recommendation)) (f : FormData) :
    List (String × String) :=
  recs.foldl (fun acc p =>
    match p.2 with
    | [] => acc
    | top :: _ =>
      if 30 < top.confidence then
        if p.1 ≠ "tags" ∧ getFieldString? f p.1 ≠ some top.value then
          acc ++ [(p.1, top.value)]
        else acc
      else acc) []

/-- Applying a list of field writes in order (the object spread
`{...prev, ...updatedFields}`). -/
def applyWrites (us : List (String × String)) (f : FormData) : FormData :=
  us.foldl (fun a kv => setField a kv.1 kv.2) f

/-- The auto-apply policy: collect the strong top suggestions and write them
into the form. -/
def applyAuto (recs : List (String × List Recommendation)) (f : FormData) :
    FormData :=
  applyWrites (autoUpdates recs f) f

/-- The pattern-insights summary held in component state. -/
structure PatternInsights where
  similarContent : List (FormData × ℝ)
  topMatches : ℕ

/-- The observable component state the effect manipulates. -/
structure AppState where
  form : FormData
  recommendations : List (String × List Recommendation)
  insights : Option PatternInsights

/-- The recompute effect (source lines 231-268): return unchanged when title
or description is empty; otherwise regenerate recommendations, auto-apply the
strong suggestions, and overwrite the insights only when the new match set is
non-empty. -/
noncomputable def stepEffect (s : AppState) : AppState :=
  if s.form.title = "" ∨ s.form.description = "" then s
  else
    { form := applyAuto
        (generateRecommendations s.form.title s.form.description).recommendations
        s.form,
      recommendations :=
        (generateRecommendations s.form.title s.form.description).recommendations,
      insights :=
        match (generateRecommendations s.form.title s.form.description).similarContent with
        | [] => s.insights
        | ms => some ⟨ms.take 3, ms.length⟩ }

section SortLemmas

variable {α β : Type} [LinearOrder β] (key : α → β)

theorem insertDescBy_perm (r : α) (l : List α) :
    (insertDescBy key r l).Perm (r :: l) := by
  induction l with
  | nil => simp [insertDescBy]
  | cons x xs ih =>
    by_cases h : key x ≤ key r
    · simp [insertDescBy, h]
    · simp only [insertDescBy, if_neg h]
      exact (ih.cons x).trans (List.Perm.swap r x xs)

theorem sortDescBy_perm (l : List α) : (sortDescBy key l).Perm l := by
  induction l with
  | nil => simp [sortDescBy]
  | cons x xs ih =>
    exact (insertDescBy_perm key x (sortDescBy key xs)).trans (ih.cons x)

theorem insertDescBy_pairwise (r : α) (l : List α)
    (hl : l.Pairwise (fun a b => key b ≤ key a)) :
    (insertDescBy key r l).Pairwise (fun a b => key b ≤ key a) := by
  induction l with
  | nil => simp [insertDescBy]
  | cons x xs ih =>
    rcases hl with _ | ⟨hx, hxs⟩
    by_cases h : key x ≤ key r
    · simp only [insertDescBy, if_pos h]
      refine List.Pairwise.cons ?_ (List.Pairwise.cons hx hxs)
      intro b hb
      rw [List.mem_cons] at hb
      rcases hb with rfl | hb
      · exact h
      · exact le_trans (hx _ hb) h
    · simp only [insertDescBy, if_neg h]
      refine List.Pairwise.cons ?_ (ih hxs)
      intro b hb
      have hb' := (insertDescBy_perm key r xs).mem_iff.mp hb
      rw [List.mem_cons] at hb'
      rcases hb' with rfl | hb'
      · exact (not_le.mp h).le
      · exact hx _ hb'

theorem sortDescBy_pairwise (l : List α) :
    (sortDescBy key l).Pairwise (fun a b => key b ≤ key a) := by
  induction l with
  | nil => simp [sortDescBy]
  | cons x xs ih => exact insertDescBy_pairwise key x _ ih

theorem insertDescBy_filter_key (r : α) (l : List α) (c : β) :
    (insertDescBy key r l).filter (fun a => decide (key a = c)) =
      if key r = c then r :: l.filter (fun a => decide (key a = c))
      else l.filter (fun a => decide (key a = c)) := by
  induction l with
  | nil => by_cases h : key r = c <;> simp [insertDescBy, h]
  | cons x xs ih =>
    by_cases h : key x ≤ key r
    · simp only [insertDescBy, if_pos h]
      by_cases hr : key r = c
      · have hx : ¬ key x = c ∨ key x = c := em (key x = c) |>.symm.imp id id
        by_cases hxc : key x = c <;>
          simp [List.filter_cons, hr, hxc]
      · by_cases hxc : key x = c <;> simp [List.filter_cons, hr, hxc]
    · simp only [insertDescBy, if_neg h]
      by_cases hr : key r = c
      · have hxc : ¬ key x = c := by
          intro hxc
          exact h (le_of_eq (hxc.trans hr.symm))
        simp [List.filter_cons, hxc, ih, hr]
      · by_cases hxc : key x = c <;> simp [List.filter_cons, hxc, ih, hr]

theorem sortDescBy_filter_key (l : List α) (c : β) :
    (sortDescBy key l).filter (fun a => decide (key a = c)) =
      l.filter (fun a => decide (key a = c)) := by
  induction l with
  | nil => simp [sortDescBy]
  | cons x xs ih =>
    rw [sortDescBy, insertDescBy_filter_key, ih]
    by_cases hxc : key x = c <;> simp [List.filter_cons, hxc]

end SortLemmas

theorem optionConfidence_cons (p : FormData × ℝ) (sims : List (FormData × ℝ))
    (getVal : FormData → Option String) (o : String) :
    optionConfidence (p :: sims) getVal o =
      (if getVal p.1 = some o then p.2 * 100 else 0) +
        optionConfidence sims getVal o := by
  by_cases h : getVal p.1 = some o <;>
    simp [optionConfidence, List.filter_cons, h]

theorem optionSupport_cons (p : FormData × ℝ) (sims : List (FormData × ℝ))
    (getVal : FormData → Option String) (o : String) :
    optionSupport (p :: sims) getVal o =
      (if getVal p.1 = some o then 1 else 0) + optionSupport sims getVal o := by
  by_cases h : getVal p.1 = some o <;>
    simp [optionSupport, List.filter_cons, h, Nat.add_comm]

theorem tableStep_none (getVal : FormData → Option String)
    (t : List (String × (ℝ × ℕ))) (p : FormData × ℝ)
    (h : getVal p.1 = none) : tableStep getVal t p = t := by
  unfold tableStep
  rw [h]

theorem tableStep_some (getVal : FormData → Option String)
    (t : List (String × (ℝ × ℕ))) (p : FormData × ℝ) (v : String)
    (h : getVal p.1 = some v) :
    tableStep getVal t p =
      if (t.map Prod.fst).contains v then
        t.map (fun e =>
          if e.1 = v then (e.1, (e.2.1 + p.2 * 100, e.2.2 + 1)) else e)
      else t := by
  unfold tableStep
  rw [h]

theorem foldl_tableStep (getVal : FormData → Option String) :
    ∀ (sims : List (FormData × ℝ)) (t : List (String × (ℝ × ℕ))),
      List.foldl (tableStep getVal) t sims =
        t.map (fun e => (e.1, (e.2.1 + optionConfidence sims getVal e.1,
                               e.2.2 + optionSupport sims getVal e.1))) := by
  intro sims
  induction sims with
  | nil =>
    intro t
    simp [optionConfidence, optionSupport]
  | cons p sims ih =>
    intro t
    rw [List.foldl_cons, ih]
    cases hgv : getVal p.1 with
    | none =>
      rw [tableStep_none getVal t p hgv]
      apply List.map_congr_left
      intro e _
      have hcond : ¬ getVal p.1 = some e.1 := by simp [hgv]
      simp [optionConfidence_cons, optionSupport_cons, hcond]
    | some v =>
      rw [tableStep_some getVal t p v hgv]
      by_cases hc : (t.map Prod.fst).contains v
      · rw [if_pos hc, List.map_map]
        apply List.map_congr_left
        intro e _
        by_cases he : e.1 = v
        · have hcond : getVal p.1 = some e.1 := by rw [hgv, he]
          simp only [Function.comp_apply, if_pos he, optionConfidence_cons,
            optionSupport_cons, if_pos hcond]
          refine Prod.ext rfl (Prod.ext ?_ ?_) <;> simp <;> ring
        · have hcond : ¬ getVal p.1 = some e.1 := by
            rw [hgv]
            intro hcon
            exact he (Option.some_injective _ hcon).symm
          simp [Function.comp, if_neg he, optionConfidence_cons,
            optionSupport_cons, hcond]
      · rw [if_neg hc]
        apply List.map_congr_left
        intro e he
        have hne : e.1 ≠ v := by
          intro hcon
          apply hc
          exact List.elem_eq_true_of_mem (hcon ▸ List.mem_map_of_mem Prod.fst he)
        have hcond : ¬ getVal p.1 = some e.1 := by
          rw [hgv]
          intro hcon
          exact hne (Option.some_injective _ hcon).symm
        simp [optionConfidence_cons, optionSupport_cons, hcond]

theorem fillTable_eq (sims : List (FormData × ℝ))
    (getVal : FormData → Option String) (options : List String) :
    fillTable sims getVal options =
      options.map (fun o =>
        (o, (optionConfidence sims getVal o, optionSupport sims getVal o))) := by
  unfold fillTable initTable
  rw [foldl_tableStep, List.map_map]
  apply List.map_congr_left
  intro o _
  simp

theorem fillTable_keys (sims : List (FormData × ℝ))
    (getVal : FormData → Option String) (options : List String) :
    (fillTable sims getVal options).map Prod.fst = options := by
  rw [fillTable_eq, List.map_map]
  simp [Function.comp_def]

theorem freq_cons (a : String × Nat) (rest : List (String × Nat)) (w : String) :
    freq (a :: rest) w = if a.1 = w then a.2 else freq rest w := by
  by_cases h : a.1 = w <;> simp [freq, List.find?_cons, h]

theorem freq_bump (acc : List (String × Nat)) (x w : String) :
    freq (bump acc x) w = if x = w then freq acc w + 1 else freq acc w := by
  induction acc with
  | nil =>
    by_cases h : x = w <;> simp [bump, freq_cons, freq, h]
  | cons a rest ih =>
    by_cases ha : a.1 = x
    · by_cases hw : x = w
      · simp [bump, ha, freq_cons, hw, ha.trans hw]
      · have haw : ¬ a.1 = w := fun hc => hw ((ha.symm.trans hc))
        simp [bump, ha, freq_cons, hw, haw]
    · by_cases hw : a.1 = w
      · have hxw : ¬ x = w := fun hc => ha (by rw [hw, ← hc])
        have hwx : ¬ w = x := fun hc => hxw hc.symm
        simp [bump, ha, freq_cons, hw, hxw, hwx]
      · simp [bump, ha, freq_cons, hw, ih]

theorem freq_foldl_bump (l : List String) :
    ∀ (acc : List (String × Nat)) (w : String),
      freq (l.foldl bump acc) w = freq acc w + l.count w := by
  induction l with
  | nil => simp
  | cons x rest ih =>
    intro acc w
    rw [List.foldl_cons, ih, freq_bump]
    by_cases h : x = w <;> simp [List.count_cons, h] <;> omega

theorem freq_analyzeText (text : String) (w : String) :
    freq (analyzeText text) w = (tokenize text).count w := by
  unfold analyzeText
  rw [freq_foldl_bump]
  simp [freq]

theorem bump_counts_pos (acc : List (String × Nat)) (x : String)
    (h : ∀ e ∈ acc, 1 ≤ e.2) : ∀ e ∈ bump acc x, 1 ≤ e.2 := by
  induction acc with
  | nil =>
    intro e he
    simp [bump] at he
    simp [he]
  | cons a rest ih =>
    intro e he
    by_cases ha : a.1 = x
    · simp only [bump, if_pos ha, List.mem_cons] at he
      rcases he with rfl | he
      · simp
      · exact h e (List.mem_cons_of_mem a he)
    · simp only [bump, if_neg ha, List.mem_cons] at he
      rcases he with rfl | he
      · exact h e (List.mem_cons_self _ _)
      · exact ih (fun e' he' => h e' (List.mem_cons_of_mem a he')) e he

theorem foldl_bump_counts_pos (l : List String) :
    ∀ (acc : List (String × Nat)), (∀ e ∈ acc, 1 ≤ e.2) →
      ∀ e ∈ l.foldl bump acc, 1 ≤ e.2 := by
  induction l with
  | nil => intro acc h; simpa using h
  | cons x rest ih =>
    intro acc h
    rw [List.foldl_cons]
    exact ih _ (bump_counts_pos acc x h)

theorem analyzeText_counts_pos (text : String) :
    ∀ e ∈ analyzeText text, 1 ≤ e.2 :=
  foldl_bump_counts_pos (tokenize text) [] (by simp)

theorem bump_ne_nil (acc : List (String × Nat)) (w : String) :
    bump acc w ≠ [] := by
  cases acc with
  | nil => simp [bump]
  | cons a rest => by_cases h : a.1 = w <;> simp [bump, h]

theorem foldl_bump_ne_nil (l : List String) :
    ∀ (acc : List (String × Nat)), acc ≠ [] → l.foldl bump acc ≠ [] := by
  induction l with
  | nil => intro acc h; simpa using h
  | cons x rest ih =>
    intro acc _
    rw [List.foldl_cons]
    exact ih _ (bump_ne_nil acc x)

theorem analyzeText_ne_nil (text : String) (h : tokenize text ≠ []) :
    analyzeText text ≠ [] := by
  unfold analyzeText
  cases htok : tokenize text with
  | nil => exact absurd htok h
  | cons x rest =>
    rw [List.foldl_cons]
    exact foldl_bump_ne_nil rest _ (bump_ne_nil [] x)

theorem vocab_comm (f1 f2 : List (String × Nat)) : vocab f1 f2 = vocab f2 f1 :=
  Finset.union_comm _ _

theorem dotProduct_comm (f1 f2 : List (String × Nat)) :
    dotProduct f1 f2 = dotProduct f2 f1 := by
  unfold dotProduct
  rw [vocab_comm]
  exact Finset.sum_congr rfl fun w _ => mul_comm _ _

theorem magSq1_swap (f1 f2 : List (String × Nat)) :
    magSq1 f1 f2 = magSq2 f2 f1 := by
  unfold magSq1 magSq2
  rw [vocab_comm]

theorem magSq2_swap (f1 f2 : List (String × Nat)) :
    magSq2 f1 f2 = magSq1 f2 f1 := by
  unfold magSq1 magSq2
  rw [vocab_comm]

theorem dotProduct_nonneg (f1 f2 : List (String × Nat)) :
    0 ≤ dotProduct f1 f2 :=
  Finset.sum_nonneg fun _ _ =>
    mul_nonneg (Nat.cast_nonneg _) (Nat.cast_nonneg _)

theorem magSq1_nonneg (f1 f2 : List (String × Nat)) : 0 ≤ magSq1 f1 f2 :=
  Finset.sum_nonneg fun _ _ => mul_self_nonneg _

theorem magSq2_nonneg (f1 f2 : List (String × Nat)) : 0 ≤ magSq2 f1 f2 :=
  Finset.sum_nonneg fun _ _ => mul_self_nonneg _

theorem dotProduct_le_sqrt_mul_sqrt (f1 f2 : List (String × Nat)) :
    dotProduct f1 f2 ≤ Real.sqrt (magSq1 f1 f2) * Real.sqrt (magSq2 f1 f2) := by
  have h1 : magSq1 f1 f2 = ∑ w ∈ vocab f1 f2, (freq f1 w : ℝ) ^ 2 := by
    unfold magSq1
    exact Finset.sum_congr rfl fun w _ => (pow_two _).symm
  have h2 : magSq2 f1 f2 = ∑ w ∈ vocab f1 f2, (freq f2 w : ℝ) ^ 2 := by
    unfold magSq2
    exact Finset.sum_congr rfl fun w _ => (pow_two _).symm
  rw [h1, h2]
  exact Real.sum_mul_le_sqrt_mul_sqrt _ _ _

theorem dotProduct_eq_zero_left (f1 f2 : List (String × Nat))
    (h : magSq1 f1 f2 = 0) : dotProduct f1 f2 = 0 := by
  unfold dotProduct
  apply Finset.sum_eq_zero
  intro w hw
  have h0 : (freq f1 w : ℝ) * (freq f1 w : ℝ) = 0 :=
    (Finset.sum_eq_zero_iff_of_nonneg fun i _ => mul_self_nonneg _).mp h w hw
  rw [mul_self_eq_zero.mp h0, zero_mul]

theorem dotProduct_eq_zero_right (f1 f2 : List (String × Nat))
    (h : magSq2 f1 f2 = 0) : dotProduct f1 f2 = 0 := by
  unfold dotProduct
  apply Finset.sum_eq_zero
  intro w hw
  have h0 : (freq f2 w : ℝ) * (freq f2 w : ℝ) = 0 :=
    (Finset.sum_eq_zero_iff_of_nonneg fun i _ => mul_self_nonneg _).mp h w hw
  rw [mul_self_eq_zero.mp h0, mul_zero]

theorem dotProduct_eq_zero_of_denom (f1 f2 : List (String × Nat))
    (h : Real.sqrt (magSq1 f1 f2) * Real.sqrt (magSq2 f1 f2) = 0) :
    dotProduct f1 f2 = 0 := by
  rcases mul_eq_zero.mp h with h1 | h2
  · exact dotProduct_eq_zero_left f1 f2
      ((Real.sqrt_eq_zero (magSq1_nonneg f1 f2)).mp h1)
  · exact dotProduct_eq_zero_right f1 f2
      ((Real.sqrt_eq_zero (magSq2_nonneg f1 f2)).mp h2)

theorem calculateSimilarity_zero_of_denom (a b : String)
    (h : Real.sqrt (magSq1 (analyzeText a) (analyzeText b)) *
         Real.sqrt (magSq2 (analyzeText a) (analyzeText b)) = 0) :
    calculateSimilarity a b = 0 := by
  unfold calculateSimilarity
  rw [if_pos h, div_one]
  exact dotProduct_eq_zero_of_denom _ _ h

theorem calculateSimilarity_nonneg (a b : String) :
    0 ≤ calculateSimilarity a b := by
  unfold calculateSimilarity
  by_cases h : Real.sqrt (magSq1 (analyzeText a) (analyzeText b)) *
      Real.sqrt (magSq2 (analyzeText a) (analyzeText b)) = 0
  · rw [if_pos h, div_one]
    exact dotProduct_nonneg _ _
  · rw [if_neg h]
    exact div_nonneg (dotProduct_nonneg _ _)
      (mul_nonneg (Real.sqrt_nonneg _) (Real.sqrt_nonneg _))

theorem calculateSimilarity_le_one (a b : String) :
    calculateSimilarity a b ≤ 1 := by
  unfold calculateSimilarity
  by_cases h : Real.sqrt (magSq1 (analyzeText a) (analyzeText b)) *
      Real.sqrt (magSq2 (analyzeText a) (analyzeText b)) = 0
  · rw [if_pos h, div_one, dotProduct_eq_zero_of_denom _ _ h]
    norm_num
  · rw [if_neg h]
    have hpos : 0 < Real.sqrt (magSq1 (analyzeText a) (analyzeText b)) *
        Real.sqrt (magSq2 (analyzeText a) (analyzeText b)) :=
      lt_of_le_of_ne
        (mul_nonneg (Real.sqrt_nonneg _) (Real.sqrt_nonneg _)) (Ne.symm h)
    rw [div_le_one hpos]
    exact dotProduct_le_sqrt_mul_sqrt _ _

theorem calculateSimilarity_comm (a b : String) :
    calculateSimilarity a b = calculateSimilarity b a := by
  unfold calculateSimilarity
  rw [dotProduct_comm, magSq1_swap (analyzeText a) (analyzeText b),
    magSq2_swap (analyzeText a) (analyzeText b),
    mul_comm (Real.sqrt (magSq2 (analyzeText b) (analyzeText a)))
      (Real.sqrt (magSq1 (analyzeText b) (analyzeText a)))]

theorem calculateSimilarity_self (s : String) (h : tokenize s ≠ []) :
    calculateSimilarity s s = 1 := by
  have hne : analyzeText s ≠ [] := analyzeText_ne_nil s h
  unfold calculateSimilarity
  have hdm : dotProduct (analyzeText s) (analyzeText s) =
      magSq1 (analyzeText s) (analyzeText s) := rfl
  have hm12 : magSq2 (analyzeText s) (analyzeText s) =
      magSq1 (analyzeText s) (analyzeText s) := rfl
  have hS : 0 < magSq1 (analyzeText s) (analyzeText s) := by
    unfold magSq1
    apply Finset.sum_pos'
    · intro w _
      exact mul_self_nonneg _
    · obtain ⟨e, rest, hrest⟩ : ∃ e rest, analyzeText s = e :: rest := by
        cases hfc : analyzeText s with
        | nil => exact absurd hfc hne
        | cons e rest => exact ⟨e, rest, rfl⟩
      refine ⟨e.1, ?_, ?_⟩
      · unfold vocab
        rw [hrest]
        simp
      · have hfreq : freq (analyzeText s) e.1 = e.2 := by
          rw [hrest, freq_cons]
          simp
        have hpos : 1 ≤ e.2 :=
          analyzeText_counts_pos s e (by rw [hrest]; exact List.mem_cons_self _ _)
        rw [hfreq]
        have : (0 : ℝ) < (e.2 : ℝ) := by
          exact_mod_cast Nat.lt_of_lt_of_le Nat.zero_lt_one hpos
        exact mul_pos this this
  have hden : Real.sqrt (magSq1 (analyzeText s) (analyzeText s)) *
      Real.sqrt (magSq2 (analyzeText s) (analyzeText s)) =
      magSq1 (analyzeText s) (analyzeText s) := by
    rw [hm12]
    exact Real.mul_self_sqrt hS.le
  rw [hden, if_neg hS.ne', hdm]
  exact div_self hS.ne'

theorem setField_tags (f : FormData) (k v : String) :
    (setField f k v).tags = f.tags := by
  unfold setField
  split <;> rfl

theorem getFieldString?_setField_ne (f : FormData) (v : String) {k k' : String}
    (h : k ≠ k') :
    getFieldString? (setField f k v) k' = getFieldString? f k' := by
  unfold setField
  split <;> (try rfl) <;>
    (unfold getFieldString? <;> split <;> simp_all)

theorem getFieldString?_setField_self (f : FormData) (v : String) {k : String}
    (hk : isStringField k = true) :
    getFieldString? (setField f k v) k = some v := by
  simp only [isStringField, List.mem_cons, List.mem_singleton,
    decide_eq_true_eq] at hk
  rcases hk with rfl | rfl | rfl | rfl | rfl | rfl | rfl | rfl | rfl | hk
  · rfl
  · rfl
  · rfl
  · rfl
  · rfl
  · rfl
  · rfl
  · rfl
  · rfl
  · simp at hk

theorem applyWrites_tags (us : List (String × String)) :
    ∀ f : FormData, (applyWrites us f).tags = f.tags := by
  induction us with
  | nil => intro f; rfl
  | cons u rest ih =>
    intro f
    unfold applyWrites
    rw [List.foldl_cons]
    exact (ih (setField f u.1 u.2)).trans (setField_tags f u.1 u.2)

theorem getFieldString?_applyWrites (us : List (String × String)) :
    ∀ (f : FormData) (k : String), isStringField k = true →
      (us.map Prod.fst).Nodup →
      getFieldString? (applyWrites us f) k =
        (match us.find? (fun e => e.1 == k) with
         | some e => some e.2
         | none => getFieldString? f k) := by
  induction us with
  | nil => intro f k _ _; rfl
  | cons u rest ih =>
    intro f k hk hnd
    rw [List.map_cons, List.nodup_cons] at hnd
    unfold applyWrites
    rw [List.foldl_cons]
    by_cases hu : u.1 = k
    · have hfind : (u :: rest).find? (fun e => e.1 == k) = some u := by
        simp [List.find?_cons, hu]
      rw [hfind]
      have hrest : rest.find? (fun e => e.1 == k) = none := by
        rw [List.find?_eq_none]
        intro e he
        simp only [beq_iff_eq]
        intro hek
        exact hnd.1 (by rw [hu, ← hek]; exact List.mem_map_of_mem Prod.fst he)
      have := ih (setField f u.1 u.2) k hk hnd.2
      unfold applyWrites at this
      rw [this, hrest]
      rw [hu]
      exact getFieldString?_setField_self f u.2 hk
    · have hfind : (u :: rest).find? (fun e => e.1 == k) =
          rest.find? (fun e => e.1 == k) := by
        simp [List.find?_cons, hu]
      rw [hfind]
      have := ih (setField f u.1 u.2) k hk hnd.2
      unfold applyWrites at this
      rw [this, getFieldString?_setField_ne f u.2 hu]

/-- The contribution of one category entry to `updatedFields`. -/
def gPolicy (f : FormData) (p : String × List Recommendation) :
    List (String × String) :=
  match p.2 with
  | [] => []
  | top :: _ =>
    if 30 < top.confidence then
      if p.1 ≠ "tags" ∧ getFieldString? f p.1 ≠ some top.value then
        [(p.1, top.value)]
      else []
    else []

theorem autoUpdates_foldl (f : FormData) :
    ∀ (recs : List (String × List Recommendation))
      (acc : List (String × String)),
      recs.foldl (fun acc p =>
        match p.2 with
        | [] => acc
        | top :: _ =>
          if 30 < top.confidence then
            if p.1 ≠ "tags" ∧ getFieldString? f p.1 ≠ some top.value then
              acc ++ [(p.1, top.value)]
            else acc
          else acc) acc
      = acc ++ (recs.map (gPolicy f)).flatten := by
  intro recs
  induction recs with
  | nil => intro acc; simp
  | cons p rest ih =>
    intro acc
    rw [List.foldl_cons]
    have hstep : (match p.2 with
        | [] => acc
        | top :: _ =>
          if 30 < top.confidence then
            if p.1 ≠ "tags" ∧ getFieldString? f p.1 ≠ some top.value then
              acc ++ [(p.1, top.value)]
            else acc
          else acc) = acc ++ gPolicy f p := by
      unfold gPolicy
      cases hp : p.2 with
      | nil => simp
      | cons top tl =>
        by_cases h30 : 30 < top.confidence
        · by_cases hcond : p.1 ≠ "tags" ∧ getFieldString? f p.1 ≠ some top.value
          · simp [h30, hcond]
          · simp [h30, hcond]
        · simp [h30]
    rw [hstep, ih, List.map_cons, List.flatten_cons, List.append_assoc]

theorem autoUpdates_eq (recs : List (String × List Recommendation))
    (f : FormData) :
    autoUpdates recs f = (recs.map (gPolicy f)).flatten := by
  unfold autoUpdates
  rw [autoUpdates_foldl]
  simp

theorem gPolicy_keys_sublist (f : FormData)
    (recs : List (String × List Recommendation)) :
    (((recs.map (gPolicy f)).flatten).map Prod.fst).Sublist (recs.map Prod.fst) := by
  induction recs with
  | nil => simp
  | cons p rest ih =>
    rw [List.map_cons, List.flatten_cons, List.map_append, List.map_cons]
    unfold gPolicy
    cases p.2 with
    | nil => exact ih.cons p.1
    | cons top tl =>
      by_cases h30 : 30 < top.confidence
      · by_cases hcond : p.1 ≠ "tags" ∧ getFieldString? f p.1 ≠ some top.value
        · simp only [if_pos h30, if_pos hcond, List.map_cons, List.map_nil,
            List.singleton_append]
          exact ih.cons₂ p.1
        · simp only [if_pos h30, if_neg hcond, List.map_nil, List.nil_append]
          exact ih.cons p.1
      · simp only [if_neg h30, List.map_nil, List.nil_append]
        exact ih.cons p.1

theorem find?_key_eq_none_of_not_mem {l : List (String × String)} {cat : String}
    (h : cat ∉ l.map Prod.fst) : l.find? (fun e => e.1 == cat) = none := by
  rw [List.find?_eq_none]
  intro e he
  simp only [beq_iff_eq]
  intro hek
  exact h (hek ▸ List.mem_map_of_mem Prod.fst he)

theorem isStringField_ne_tags {k : String} (hk : isStringField k = true) :
    k ≠ "tags" := by
  simp only [isStringField, List.mem_cons, List.mem_singleton,
    decide_eq_true_eq] at hk
  rcases hk with rfl | rfl | rfl | rfl | rfl | rfl | rfl | rfl | rfl | hk
  · decide
  · decide
  · decide
  · decide
  · decide
  · decide
  · decide
  · decide
  · decide
  · simp at hk

theorem gPolicy_eq_nil {f : FormData} {p : String × List Recommendation}
    (h : p.2 = []) : gPolicy f p = [] := by
  unfold gPolicy
  rw [h]

theorem gPolicy_eq_cons {f : FormData} {p : String × List Recommendation}
    {top : Recommendation} {tl : List Recommendation} (h : p.2 = top :: tl) :
    gPolicy f p =
      if 30 < top.confidence then
        if p.1 ≠ "tags" ∧ getFieldString? f p.1 ≠ some top.value then
          [(p.1, top.value)]
        else []
      else [] := by
  unfold gPolicy
  rw [h]

theorem find?_flatten_policy (f : FormData) :
    ∀ (recs : List (String × List Recommendation)) (cat : String)
      (rl : List Recommendation),
      (recs.map Prod.fst).Nodup → (cat, rl) ∈ recs →
      ((recs.map (gPolicy f)).flatten).find? (fun e => e.1 == cat) =
        (match rl with
         | [] => none
         | top :: _ =>
           if 30 < top.confidence ∧ cat ≠ "tags" ∧
              getFieldString? f cat ≠ some top.value
           then some (cat, top.value) else none) := by
  intro recs
  induction recs with
  | nil => intro cat rl _ hmem; simp at hmem
  | cons q rest ih =>
    intro cat rl hnd hmem
    rw [List.map_cons, List.nodup_cons] at hnd
    rw [List.map_cons, List.flatten_cons, List.find?_append]
    rw [List.mem_cons] at hmem
    rcases hmem with rfl | hmem
    · have hrest : ((rest.map (gPolicy f)).flatten).find?
          (fun e => e.1 == cat) = none := by
        apply find?_key_eq_none_of_not_mem
        intro hc
        exact hnd.1 ((gPolicy_keys_sublist f rest).mem hc)
      rw [hrest]
      unfold gPolicy
      cases rl with
      | nil => rfl
      | cons top tl =>
        by_cases h30 : 30 < top.confidence
        · by_cases hcond : cat ≠ "tags" ∧ getFieldString? f cat ≠ some top.value
          · have : (30 < top.confidence ∧ cat ≠ "tags" ∧
                getFieldString? f cat ≠ some top.value) := ⟨h30, hcond⟩
            simp only [if_pos h30, if_pos hcond, if_pos this]
            simp [List.find?_cons]
          · have : ¬ (30 < top.confidence ∧ cat ≠ "tags" ∧
                getFieldString? f cat ≠ some top.value) := fun hc => hcond hc.2
            simp only [if_pos h30, if_neg hcond, if_neg this]
            rfl
        · have : ¬ (30 < top.confidence ∧ cat ≠ "tags" ∧
              getFieldString? f cat ≠ some top.value) := fun hc => h30 hc.1
          simp only [if_neg h30, if_neg this]
          rfl
    · have hqcat : q.1 ≠ cat := by
        intro hc
        exact hnd.1 (hc ▸ List.mem_map_of_mem Prod.fst hmem)
      have hq : (gPolicy f q).find? (fun e => e.1 == cat) = none := by
        apply find?_key_eq_none_of_not_mem
        intro hc
        rcases hrl : q.2 with _ | ⟨top, tl⟩
        · rw [gPolicy_eq_nil hrl] at hc
          simp at hc
        · rw [gPolicy_eq_cons hrl] at hc
          by_cases h30 : 30 < top.confidence
          · by_cases hcond : q.1 ≠ "tags" ∧ getFieldString? f q.1 ≠ some top.value
            · rw [if_pos h30, if_pos hcond] at hc
              simp at hc
              exact hqcat hc.symm
            · rw [if_pos h30, if_neg hcond] at hc
              simp at hc
          · rw [if_neg h30] at hc
            simp at hc
      rw [hq, Option.none_or]
      exact ih cat rl hnd.2 hmem

theorem flatten_policy_nil (f : FormData)
    (recs : List (String × List Recommendation))
    (h : ∀ p ∈ recs, gPolicy f p = []) :
    (recs.map (gPolicy f)).flatten = [] := by
  induction recs with
  | nil => rfl
  | cons q rest ih =>
    rw [List.map_cons, List.flatten_cons, h q (List.mem_cons_self _ _),
      List.nil_append]
    exact ih fun p hp => h p (List.mem_cons_of_mem q hp)

theorem generateRecommendations_blank (t d : String)
    (h : trimString (t ++ " " ++ d) = "") :
    generateRecommendations t d = ⟨[], []⟩ := by
  unfold generateRecommendations
  rw [if_pos h]

theorem generateRecommendations_sc (t d : String)
    (h : ¬ trimString (t ++ " " ++ d) = "") :
    (generateRecommendations t d).similarContent =
      sortDescBy (fun p => p.2)
        ((corpusScores t d).filter (fun p => decide ((0.1 : ℝ) < p.2))) := by
  unfold generateRecommendations
  rw [if_neg h]

theorem generateRecommendations_recs (t d : String)
    (h : ¬ trimString (t ++ " " ++ d) = "") :
    (generateRecommendations t d).recommendations =
      categoryDefinitionsList.map (fun kv =>
        (kv.1, categoryRecs
          (sortDescBy (fun p => p.2)
            ((corpusScores t d).filter (fun p => decide ((0.1 : ℝ) < p.2))))
          (fun c => getFieldString? c kv.1) kv.2.options)) := by
  unfold generateRecommendations
  rw [if_neg h]

theorem categoryRecs_eq (sims : List (FormData × ℝ))
    (getVal : FormData → Option String) (options : List String) :
    categoryRecs sims getVal options =
      sortDescBy (fun r => r.confidence)
        ((options.map (fun o =>
          Recommendation.mk o (round (optionConfidence sims getVal o))
            (optionSupport sims getVal o))).filter
          (fun r => decide (0 < r.confidence))) := by
  unfold categoryRecs
  rw [fillTable_eq, List.map_map]
  rfl

theorem mem_categoryRecs {sims : List (FormData × ℝ)}
    {getVal : FormData → Option String} {options : List String}
    {r : Recommendation} :
    r ∈ categoryRecs sims getVal options ↔
      (∃ o ∈ options,
        Recommendation.mk o (round (optionConfidence sims getVal o))
          (optionSupport sims getVal o) = r) ∧ 0 < r.confidence := by
  rw [categoryRecs_eq, (sortDescBy_perm _ _).mem_iff, List.mem_filter]
  simp only [List.mem_map, decide_eq_true_eq]

theorem categoryRecs_pairwise (sims : List (FormData × ℝ))
    (getVal : FormData → Option String) (options : List String) :
    (categoryRecs sims getVal options).Pairwise
      (fun a b => b.confidence ≤ a.confidence) := by
  rw [categoryRecs_eq]
  exact sortDescBy_pairwise (fun r : Recommendation => r.confidence) _

theorem categoryRecs_tie_sublist (sims : List (FormData × ℝ))
    (getVal : FormData → Option String) (options : List String) (c : ℤ) :
    (((categoryRecs sims getVal options).filter
        (fun r => decide (r.confidence = c))).map
      (fun r => r.value)).Sublist options := by
  rw [categoryRecs_eq, sortDescBy_filter_key]
  have h1 := ((List.filter_sublist
      (p := fun r => decide (r.confidence = c))
      ((options.map (fun o =>
        Recommendation.mk o (round (optionConfidence sims getVal o))
          (optionSupport sims getVal o))).filter
        (fun r => decide (0 < r.confidence)))).trans
    (List.filter_sublist _)).map (fun r => r.value)
  rw [List.map_map] at h1
  simpa [Function.comp_def] using h1

theorem corpusScores_map_fst (t d : String) :
    (corpusScores t d).map Prod.fst = historicalContent := by
  unfold corpusScores
  rw [List.map_map]
  simp [Function.comp_def]

theorem optionConfidence_eq_zero_of_support (sims : List (FormData × ℝ))
    (getVal : FormData → Option String) (o : String)
    (h : optionSupport sims getVal o = 0) :
    optionConfidence sims getVal o = 0 := by
  unfold optionSupport at h
  unfold optionConfidence
  rw [List.length_eq_zero] at h
  rw [h]
  simp

/-- Claim C1: for every matched-and-sorted similarity result list and every
category, each emitted recommendation's confidence is the rounded sum of
`similarity * 100` over the matched records that voted for its value,
`similar` counts exactly those records, every emitted confidence is strictly
positive, and an option chosen by no matched record is absent from the
output. -/
theorem claim1_recommender_confidence (sims : List (FormData × ℝ))
    (getVal : FormData → Option String) (options : List String) :
    (∀ r ∈ categoryRecs sims getVal options,
      r.confidence = round (optionConfidence sims getVal r.value) ∧
      r.similar = optionSupport sims getVal r.value ∧
      0 < r.confidence ∧ r.value ∈ options) ∧
    (∀ o : String, optionSupport sims getVal o = 0 →
      o ∉ (categoryRecs sims getVal options).map (fun r => r.value)) := by
  constructor
  · intro r hr
    rcases mem_categoryRecs.mp hr with ⟨⟨o, ho, hmk⟩, hpos⟩
    subst hmk
    exact ⟨rfl, rfl, hpos, ho⟩
  · intro o hsup hmem
    rw [List.mem_map] at hmem
    rcases hmem with ⟨r, hr, hval⟩
    rcases mem_categoryRecs.mp hr with ⟨⟨o', _, hmk⟩, hpos⟩
    subst hmk
    have hval' : o' = o := hval
    subst hval'
    rw [optionConfidence_eq_zero_of_support sims getVal o' hsup] at hpos
    simp at hpos

/-- Witness for C1 at a concrete one-record match list, category accessor and
option list. -/
theorem claim1_witness :
    (Recommendation.mk "LONG FORM" 100 1 ∈
      categoryRecs [((FormData.mk "" "" "" "" "LONG FORM" "" "" "" "" []), (1 : ℝ))]
        (fun c => getFieldString? c "contentType") ["LONG FORM"]) ∧
    (Recommendation.mk "LONG FORM" 100 1).confidence =
      round (optionConfidence
        [((FormData.mk "" "" "" "" "LONG FORM" "" "" "" "" []), (1 : ℝ))]
        (fun c => getFieldString? c "contentType") "LONG FORM") ∧
    optionSupport [((FormData.mk "" "" "" "" "LONG FORM" "" "" "" "" []), (1 : ℝ))]
      (fun c => getFieldString? c "contentType") "Newsletter" = 0 ∧
    "Newsletter" ∉ (categoryRecs
      [((FormData.mk "" "" "" "" "LONG FORM" "" "" "" "" []), (1 : ℝ))]
      (fun c => getFieldString? c "contentType") ["LONG FORM"]).map
        (fun r => r.value) := by
  have hconf : optionConfidence
      [((FormData.mk "" "" "" "" "LONG FORM" "" "" "" "" []), (1 : ℝ))]
      (fun c => getFieldString? c "contentType") "LONG FORM" = 100 := by
    unfold optionConfidence
    norm_num [getFieldString?]
  have hsup : optionSupport
      [((FormData.mk "" "" "" "" "LONG FORM" "" "" "" "" []), (1 : ℝ))]
      (fun c => getFieldString? c "contentType") "LONG FORM" = 1 := by
    decide
  have hmem : Recommendation.mk "LONG FORM" 100 1 ∈
      categoryRecs [((FormData.mk "" "" "" "" "LONG FORM" "" "" "" "" []), (1 : ℝ))]
        (fun c => getFieldString? c "contentType") ["LONG FORM"] := by
    apply mem_categoryRecs.mpr
    refine ⟨⟨"LONG FORM", by simp, ?_⟩, by norm_num⟩
    rw [hconf, hsup]
    norm_num
  refine ⟨hmem, ?_, ?_, ?_⟩
  · exact ((claim1_recommender_confidence _ _ _).1 _ hmem).1
  · decide
  · exact (claim1_recommender_confidence _ _ _).2 "Newsletter" (by decide)

/-- Claim C5: within one category's emitted list, entries are sorted
descending by rounded confidence, and the values of the entries sharing any
fixed confidence appear as a subsequence of the category's declared option
order (ties keep declaration order). -/
theorem claim5_category_sort (sims : List (FormData × ℝ))
    (getVal : FormData → Option String) (options : List String) :
    (categoryRecs sims getVal options).Pairwise
      (fun a b => b.confidence ≤ a.confidence) ∧
    ∀ c : ℤ, (((categoryRecs sims getVal options).filter
        (fun r => decide (r.confidence = c))).map
      (fun r => r.value)).Sublist options :=
  ⟨categoryRecs_pairwise sims getVal options,
   fun c => categoryRecs_tie_sublist sims getVal options c⟩

/-- Claim C3: the corpus matcher returns exactly the corpus records scoring
strictly above the 0.1 floor, sorted descending by similarity with ties in
corpus declaration order, and a blank trimmed live text short-circuits to an
empty result. -/
theorem claim3_corpus_matcher (t d : String) :
    (trimString (t ++ " " ++ d) = "" →
      generateRecommendations t d = ⟨[], []⟩) ∧
    (trimString (t ++ " " ++ d) ≠ "" →
      ((generateRecommendations t d).similarContent.Perm
        ((corpusScores t d).filter (fun p => decide ((0.1 : ℝ) < p.2))) ∧
       (∀ p ∈ (generateRecommendations t d).similarContent, (0.1 : ℝ) < p.2) ∧
       (generateRecommendations t d).similarContent.Pairwise
         (fun a b => b.2 ≤ a.2) ∧
       (∀ x : ℝ, (((generateRecommendations t d).similarContent.filter
           (fun p => decide (p.2 = x))).map Prod.fst).Sublist
         historicalContent))) := by
  constructor
  · exact generateRecommendations_blank t d
  · intro h
    rw [generateRecommendations_sc t d h]
    refine ⟨sortDescBy_perm _ _, ?_, ?_, ?_⟩
    · intro p hp
      have hp' := (sortDescBy_perm (fun p : FormData × ℝ => p.2) _).mem_iff.mp hp
      rw [List.mem_filter] at hp'
      simpa using hp'.2
    · exact sortDescBy_pairwise (fun p : FormData × ℝ => p.2) _
    · intro x
      rw [sortDescBy_filter_key]
      have h1 := ((List.filter_sublist
          (p := fun p : FormData × ℝ => decide (p.2 = x))
          ((corpusScores t d).filter
            (fun p => decide ((0.1 : ℝ) < p.2)))).trans
        (List.filter_sublist _)).map Prod.fst
      rwa [corpusScores_map_fst] at h1

/-- Witness for C3: the blank case at empty inputs and the non-blank case at a
concrete live text. -/
theorem claim3_witness :
    (trimString ("" ++ " " ++ "") = "" ∧
      generateRecommendations "" "" = ⟨[], []⟩) ∧
    (trimString ("hello" ++ " " ++ "world") ≠ "" ∧
      (generateRecommendations "hello" "world").similarContent.Perm
        ((corpusScores "hello" "world").filter
          (fun p => decide ((0.1 : ℝ) < p.2)))) :=
  ⟨⟨by decide, (claim3_corpus_matcher "" "").1 (by decide)⟩,
   ⟨by decide, ((claim3_corpus_matcher "hello" "world").2 (by decide)).1⟩⟩

/-- Claim C4: the similarity is always within `[0, 1]`, and when the product
of the two vector magnitudes is 0 the guarded denominator forces the result to
exactly 0. -/
theorem claim4_similarity_bounds (a b : String) :
    0 ≤ calculateSimilarity a b ∧ calculateSimilarity a b ≤ 1 ∧
    (Real.sqrt (magSq1 (analyzeText a) (analyzeText b)) *
       Real.sqrt (magSq2 (analyzeText a) (analyzeText b)) = 0 →
     calculateSimilarity a b = 0) :=
  ⟨calculateSimilarity_nonneg a b, calculateSimilarity_le_one a b,
   calculateSimilarity_zero_of_denom a b⟩

/-- Witness for C4: at two empty inputs the magnitude product is 0 and the
similarity is exactly 0. -/
theorem claim4_witness :
    (Real.sqrt (magSq1 (analyzeText "") (analyzeText "")) *
       Real.sqrt (magSq2 (analyzeText "") (analyzeText "")) = 0) ∧
    calculateSimilarity "" "" = 0 := by
  have hA : analyzeText "" = [] := rfl
  have h0 : magSq1 (analyzeText "") (analyzeText "") = 0 := by
    rw [hA]
    simp [magSq1, vocab]
  have hden : Real.sqrt (magSq1 (analyzeText "") (analyzeText "")) *
      Real.sqrt (magSq2 (analyzeText "") (analyzeText "")) = 0 := by
    rw [h0, Real.sqrt_zero, zero_mul]
  exact ⟨hden, (claim4_similarity_bounds "" "").2.2 hden⟩

/-- Claim C6: a string with at least one kept token (length above 2) has
self-similarity exactly 1. -/
theorem claim6_self_similarity (s : String) (h : tokenize s ≠ []) :
    calculateSimilarity s s = 1 :=
  calculateSimilarity_self s h

/-- Witness for C6 at a concrete string. -/
theorem claim6_witness :
    tokenize "hello" ≠ [] ∧ calculateSimilarity "hello" "hello" = 1 :=
  ⟨by decide, claim6_self_similarity "hello" (by decide)⟩

/-- Claim C7: the similarity is symmetric in its two text arguments. -/
theorem claim7_similarity_symmetric (a b : String) :
    calculateSimilarity a b = calculateSimilarity b a :=
  calculateSimilarity_comm a b

/-- Claim C8: the tokenizer maps each kept token to its occurrence count, all
kept tokens are longer than 2 characters, empty and all-short inputs give an
empty map, and tokenization makes the similarity ignore case and
punctuation on the concrete pair from the specification. -/
theorem claim8_tokenizer :
    (∀ (text w : String),
      freq (analyzeText text) w = (tokenize text).count w) ∧
    (∀ (text w : String), w ∈ tokenize text → 2 < w.length) ∧
    analyzeText "" = [] ∧
    (∀ text : String, (∀ cs ∈ splitRuns (lowerChars text), cs.length ≤ 2) →
      analyzeText text = []) ∧
    calculateSimilarity "AI Guide!" "ai guide" =
      calculateSimilarity "ai guide" "ai guide" := by
  refine ⟨freq_analyzeText, ?_, rfl, ?_, ?_⟩
  · intro text w hw
    unfold tokenize at hw
    rw [List.mem_filter] at hw
    simpa using hw.2
  · intro text hshort
    have htok : tokenize text = [] := by
      unfold tokenize
      rw [List.filter_eq_nil_iff]
      intro w hw
      rw [List.mem_map] at hw
      rcases hw with ⟨cs, hcs, rfl⟩
      have hlen : (String.mk cs).length = cs.length := by
        simp [String.length]
      simp only [decide_eq_true_eq, not_lt, hlen]
      exact hshort cs hcs
    unfold analyzeText
    rw [htok]
    rfl
  · have hA : analyzeText "AI Guide!" = analyzeText "ai guide" := by decide
    unfold calculateSimilarity
    rw [hA]

/-- Witness for C8: concrete kept token, and a concrete all-short input with
an empty frequency map. -/
theorem claim8_witness :
    ("guide" ∈ tokenize "AI Guide!" ∧ 2 < ("guide" : String).length) ∧
    ((∀ cs ∈ splitRuns (lowerChars "ai go"), cs.length ≤ 2) ∧
      analyzeText "ai go" = []) :=
  ⟨⟨by decide, claim8_tokenizer.2.1 "AI Guide!" "guide" (by decide)⟩,
   ⟨by decide, claim8_tokenizer.2.2.2.1 "ai go" (by decide)⟩⟩

/-- Claim C2: the auto-apply policy overwrites a category's field with the
top-ranked value exactly when the top confidence is strictly above 30 and the
current value differs; a top confidence of exactly 30 never overwrites, a
category absent from the results (or with an empty list) is untouched, the
`tags` field is never overwritten, and when nothing qualifies the form state
is unchanged. -/
theorem find?_flatten_policy_nil (f : FormData)
    (recs : List (String × List Recommendation)) (cat : String)
    (hnd : (recs.map Prod.fst).Nodup)
    (hmem : (cat, ([] : List Recommendation)) ∈ recs) :
    ((recs.map (gPolicy f)).flatten).find? (fun e => e.1 == cat) = none :=
  find?_flatten_policy f recs cat [] hnd hmem

theorem find?_flatten_policy_cons (f : FormData)
    (recs : List (String × List Recommendation)) (cat : String)
    (top : Recommendation) (rest : List Recommendation)
    (hnd : (recs.map Prod.fst).Nodup) (hmem : (cat, top :: rest) ∈ recs) :
    ((recs.map (gPolicy f)).flatten).find? (fun e => e.1 == cat) =
      (if 30 < top.confidence ∧ cat ≠ "tags" ∧
          getFieldString? f cat ≠ some top.value
       then some (cat, top.value) else none) :=
  find?_flatten_policy f recs cat (top :: rest) hnd hmem

theorem claim2_auto_apply (recs : List (String × List Recommendation))
    (f : FormData) (hnd : (recs.map Prod.fst).Nodup) :
    ((applyAuto recs f).tags = f.tags) ∧
    (∀ (cat : String) (top : Recommendation) (rest : List Recommendation),
      (cat, top :: rest) ∈ recs → isStringField cat = true →
      getFieldString? (applyAuto recs f) cat =
        (if 30 < top.confidence ∧ getFieldString? f cat ≠ some top.value
         then some top.value else getFieldString? f cat)) ∧
    (∀ (cat : String) (top : Recommendation) (rest : List Recommendation),
      (cat, top :: rest) ∈ recs → isStringField cat = true →
      top.confidence = 30 →
      getFieldString? (applyAuto recs f) cat = getFieldString? f cat) ∧
    (∀ cat : String, cat ∉ recs.map Prod.fst → isStringField cat = true →
      getFieldString? (applyAuto recs f) cat = getFieldString? f cat) ∧
    (∀ cat : String, (cat, ([] : List Recommendation)) ∈ recs →
      isStringField cat = true →
      getFieldString? (applyAuto recs f) cat = getFieldString? f cat) ∧
    ((∀ (cat : String) (top : Recommendation) (rest : List Recommendation),
        (cat, top :: rest) ∈ recs →
        top.confidence ≤ 30 ∨ getFieldString? f cat = some top.value ∨
          cat = "tags") →
      applyAuto recs f = f) := by
  have hndu : (((recs.map (gPolicy f)).flatten).map Prod.fst).Nodup :=
    (gPolicy_keys_sublist f recs).nodup hnd
  have hget : ∀ cat : String, isStringField cat = true →
      getFieldString? (applyAuto recs f) cat =
        (match ((recs.map (gPolicy f)).flatten).find?
            (fun e => e.1 == cat) with
         | some e => some e.2
         | none => getFieldString? f cat) := by
    intro cat hk
    unfold applyAuto
    rw [autoUpdates_eq]
    exact getFieldString?_applyWrites _ f cat hk hndu
  have hchar : ∀ (cat : String) (top : Recommendation)
      (rest : List Recommendation),
      (cat, top :: rest) ∈ recs → isStringField cat = true →
      getFieldString? (applyAuto recs f) cat =
        (if 30 < top.confidence ∧ getFieldString? f cat ≠ some top.value
         then some top.value else getFieldString? f cat) := by
    intro cat top rest hmem hk
    rw [hget cat hk, find?_flatten_policy_cons f recs cat top rest hnd hmem]
    by_cases hcond : 30 < top.confidence ∧
        getFieldString? f cat ≠ some top.value
    · rw [if_pos ⟨hcond.1, isStringField_ne_tags hk, hcond.2⟩, if_pos hcond]
    · have hfull : ¬ (30 < top.confidence ∧ cat ≠ "tags" ∧
          getFieldString? f cat ≠ some top.value) := by
        intro hc
        exact hcond ⟨hc.1, hc.2.2⟩
      rw [if_neg hfull, if_neg hcond]
  refine ⟨?_, hchar, ?_, ?_, ?_, ?_⟩
  · unfold applyAuto
    exact applyWrites_tags _ f
  · intro cat top rest hmem hk h30
    rw [hchar cat top rest hmem hk, if_neg]
    intro hc
    rw [h30] at hc
    exact lt_irrefl 30 hc.1
  · intro cat hcat hk
    rw [hget cat hk, find?_key_eq_none_of_not_mem]
    intro hc
    exact hcat ((gPolicy_keys_sublist f recs).mem hc)
  · intro cat hmem hk
    rw [hget cat hk, find?_flatten_policy_nil f recs cat hnd hmem]
  · intro hnone
    have hall : ∀ p ∈ recs, gPolicy f p = [] := by
      intro p hp
      rcases hrl : p.2 with _ | ⟨top, tl⟩
      · exact gPolicy_eq_nil hrl
      · rw [gPolicy_eq_cons hrl]
        have hp' : (p.1, top :: tl) ∈ recs := by
          have : p = (p.1, top :: tl) := by
            rw [← hrl]
          rwa [← this]
        rcases hnone p.1 top tl hp' with h30 | heq | htags
        · rw [if_neg (not_lt.mpr h30)]
        · by_cases h30 : 30 < top.confidence
          · rw [if_pos h30, if_neg]
            intro hc
            exact hc.2 heq
          · rw [if_neg h30]
        · by_cases h30 : 30 < top.confidence
          · rw [if_pos h30, if_neg]
            intro hc
            exact hc.1 htags
          · rw [if_neg h30]
    unfold applyAuto
    rw [autoUpdates_eq, flatten_policy_nil f recs hall]
    rfl

/-- Witness for C2: a concrete recommendation map where a 50-confidence top
overwrites the field, a 30-confidence top does not, and `tags` is
untouched. -/
theorem claim2_witness :
    (([("contentType", [Recommendation.mk "LONG FORM" 50 1]),
       ("accessLevel", [Recommendation.mk "Public" 30 1])].map
        (Prod.fst (β := List Recommendation))).Nodup) ∧
    getFieldString? (applyAuto
        [("contentType", [Recommendation.mk "LONG FORM" 50 1]),
         ("accessLevel", [Recommendation.mk "Public" 30 1])] initialFormData)
      "contentType" = some "LONG FORM" ∧
    getFieldString? (applyAuto
        [("contentType", [Recommendation.mk "LONG FORM" 50 1]),
         ("accessLevel", [Recommendation.mk "Public" 30 1])] initialFormData)
      "accessLevel" = getFieldString? initialFormData "accessLevel" ∧
    (applyAuto
        [("contentType", [Recommendation.mk "LONG FORM" 50 1]),
         ("accessLevel", [Recommendation.mk "Public" 30 1])]
      initialFormData).tags = initialFormData.tags := by
  have h := claim2_auto_apply
    [("contentType", [Recommendation.mk "LONG FORM" 50 1]),
     ("accessLevel", [Recommendation.mk "Public" 30 1])] initialFormData
    (by decide)
  refine ⟨by decide, ?_, ?_, h.1⟩
  · rw [h.2.1 "contentType" (Recommendation.mk "LONG FORM" 50 1) []
      (by decide) (by decide), if_pos]
    exact ⟨by decide, by decide⟩
  · exact h.2.2.1 "accessLevel" (Recommendation.mk "Public" 30 1) []
      (by decide) (by decide) rfl

/-- Claim C9 (amended): the effect recomputes recommendations, auto-apply and
insights exactly when both title and description are non-empty; when either is
empty it returns the state unchanged, even if the combined trimmed text is
non-blank. -/
theorem claim9_recompute_guard (s : AppState) :
    ((s.form.title ≠ "" ∧ s.form.description ≠ "") →
      ((stepEffect s).recommendations =
        (generateRecommendations s.form.title
          s.form.description).recommendations ∧
       (stepEffect s).form = applyAuto
         (generateRecommendations s.form.title
           s.form.description).recommendations s.form ∧
       (stepEffect s).insights =
         (match (generateRecommendations s.form.title
             s.form.description).similarContent with
          | [] => s.insights
          | ms => some ⟨ms.take 3, ms.length⟩))) ∧
    ((s.form.title = "" ∨ s.form.description = "") → stepEffect s = s) := by
  constructor
  · intro h
    have hg : ¬ (s.form.title = "" ∨ s.form.description = "") := by
      intro hc
      rcases hc with hc | hc
      · exact h.1 hc
      · exact h.2 hc
    unfold stepEffect
    rw [if_neg hg]
    exact ⟨rfl, rfl, rfl⟩
  · intro h
    unfold stepEffect
    rw [if_pos h]

/-- Counterexample to C9 as stated: with title `"hello"` and empty
description the combined trimmed text is non-blank, yet the effect returns
the state unchanged and its recommendations differ from a fresh
recomputation. -/
theorem claim9_counterexample :
    trimString ("hello" ++ " " ++ "") ≠ "" ∧
    stepEffect (AppState.mk
      (FormData.mk "hello" "" "" "" "" "" "" "" "" []) [] none) =
      AppState.mk (FormData.mk "hello" "" "" "" "" "" "" "" "" []) [] none ∧
    (stepEffect (AppState.mk
      (FormData.mk "hello" "" "" "" "" "" "" "" "" []) [] none)).recommendations
      ≠ (generateRecommendations "hello" "").recommendations := by
  have hstep : stepEffect (AppState.mk
      (FormData.mk "hello" "" "" "" "" "" "" "" "" []) [] none) =
      AppState.mk (FormData.mk "hello" "" "" "" "" "" "" "" "" []) [] none := by
    unfold stepEffect
    rw [if_pos (Or.inr rfl)]
  refine ⟨by decide, hstep, ?_⟩
  rw [hstep, generateRecommendations_recs "hello" "" (by decide)]
  intro hc
  have hlen := congrArg List.length hc
  simp [categoryDefinitionsList] at hlen

/-- Witness for C9: both guard directions at concrete states. -/
theorem claim9_witness :
    ((AppState.mk (FormData.mk "alpha" "beta" "" "" "" "" "" "" "" [])
        [] none).form.title ≠ "" ∧
     (AppState.mk (FormData.mk "alpha" "beta" "" "" "" "" "" "" "" [])
        [] none).form.description ≠ "" ∧
     (stepEffect (AppState.mk
        (FormData.mk "alpha" "beta" "" "" "" "" "" "" "" [])
        [] none)).recommendations =
       (generateRecommendations "alpha" "beta").recommendations) ∧
    ((AppState.mk (FormData.mk "" "beta" "" "" "" "" "" "" "" [])
        [] none).form.title = "" ∧
     stepEffect (AppState.mk (FormData.mk "" "beta" "" "" "" "" "" "" "" [])
        [] none) =
       AppState.mk (FormData.mk "" "beta" "" "" "" "" "" "" "" [])
         [] none) :=
  ⟨⟨by decide, by decide,
    ((claim9_recompute_guard _).1 ⟨by decide, by decide⟩).1⟩,
   ⟨rfl, (claim9_recompute_guard _).2 (Or.inl rfl)⟩⟩

/-- Claim C10: a recomputation yielding no matches leaves previously stored
pattern insights unchanged; insights are only ever overwritten with a
non-empty match summary, never cleared. -/
theorem claim10_insights_frame (s : AppState) :
    ((generateRecommendations s.form.title
        s.form.description).similarContent = [] →
      (stepEffect s).insights = s.insights) ∧
    (s.insights.isSome = true → (stepEffect s).insights.isSome = true) ∧
    ((stepEffect s).insights = s.insights ∨
      ∃ ms : List (FormData × ℝ), ms ≠ [] ∧
        (stepEffect s).insights = some ⟨ms.take 3, ms.length⟩) := by
  unfold stepEffect
  by_cases hg : s.form.title = "" ∨ s.form.description = ""
  · rw [if_pos hg]
    exact ⟨fun _ => rfl, fun h => h, Or.inl rfl⟩
  · rw [if_neg hg]
    cases hsc : (generateRecommendations s.form.title
        s.form.description).similarContent with
    | nil =>
      exact ⟨fun _ => rfl, fun h => h, Or.inl rfl⟩
    | cons m ms =>
      exact ⟨fun hc => (List.cons_ne_nil m ms hc).elim, fun _ => rfl,
        Or.inr ⟨m :: ms, List.cons_ne_nil m ms, rfl⟩⟩

/-- Witness for C10 at a state whose stored insights survive a blank-text
recomputation. -/
theorem claim10_witness :
    (generateRecommendations (AppState.mk initialFormData []
        (some ⟨[], 0⟩)).form.title
      (AppState.mk initialFormData [] (some ⟨[], 0⟩)).form.description
      ).similarContent = [] ∧
    (stepEffect (AppState.mk initialFormData [] (some ⟨[], 0⟩))).insights =
      some ⟨[], 0⟩ ∧
    (AppState.mk initialFormData [] (some ⟨[], 0⟩)).insights.isSome = true ∧
    (stepEffect (AppState.mk initialFormData []
      (some ⟨[], 0⟩))).insights.isSome = true := by
  have hsc : (generateRecommendations (AppState.mk initialFormData []
      (some ⟨[], 0⟩)).form.title
      (AppState.mk initialFormData [] (some ⟨[], 0⟩)).form.description
      ).similarContent = [] := by
    have h := generateRecommendations_blank
      (AppState.mk initialFormData [] (some ⟨[], 0⟩)).form.title
      (AppState.mk initialFormData [] (some ⟨[], 0⟩)).form.description
      (by decide)
    rw [h]
  have h1 := (claim10_insights_frame
    (AppState.mk initialFormData [] (some ⟨[], 0⟩))).1 hsc
  exact ⟨hsc, h1, rfl,
    (claim10_insights_frame
      (AppState.mk initialFormData [] (some ⟨[], 0⟩))).2.1 rfl⟩
